import Mathlib

/-
Verification development for cadwyn's `routing.py` (versioned router
generation).  The first part embeds the route-structural operations of
`_EndpointTransformer` (route locator, endpoint instruction application,
`transform`); the second part embeds `_AnnotationTransformer` (annotation
version rewriting with its per-instance memoization cache).

Modelling conventions:
* Python mutation of route objects is modelled by value-passing: functions
  return the updated route list instead of mutating in place.
* Python exceptions (`RouterGenerationError` etc.) are modelled with
  `Except GenErr` / `Except AnnErr`; the error constructors carry the data
  that the corresponding f-string messages name.
* Python `set[str]` values (HTTP method sets) are modelled as `List String`
  with set-like membership/subset/union operations.
-/

deriving instance DecidableEq for Except

/-- Value of a route attribute touched by an "endpoint had" instruction
(for example `status_code`).  Python values are dynamically typed; this small
universe is enough for the attributes the instructions manipulate. -/
inductive AttrVal where
  | nat (n : Nat)
  | str (s : String)
  | bool (b : Bool)
  | noneV
deriving DecidableEq

/-- Embeds the fields of fastapi's `Dependant` that `routing.py` touches:
`request_param_name` and `response_param_name` (`none` models a falsy value). -/
structure Dependant where
  requestParamName : Option String
  responseParamName : Option String
deriving DecidableEq

/-- Embeds a fastapi `APIRoute` as far as `routing.py` observes or mutates it:
`path`, `methods` (a set), the endpoint function's `__name__`, `tags`
(which carry the deleted-route marker), the extra mutable attributes that
"endpoint had" instructions may overwrite, whether the endpoint is an async
callable, the request/response parameter names of the endpoint's own
signature (used when the dependant is rebuilt), and the current `dependant`. -/
structure Route where
  path : String
  methods : List String
  funcName : String
  tags : List String
  attrs : List (String × AttrVal)
  endpointIsAsync : Bool
  handlerReqParam : Option String
  handlerRespParam : Option String
  dependant : Dependant
deriving DecidableEq

/-- Embeds starlette's `BaseRoute`: either a fastapi `APIRoute` or some other
route kind (which `routing.py` skips everywhere via `isinstance` checks). -/
inductive BRoute where
  | api (r : Route)
  | nonApi (id : Nat)
deriving DecidableEq

/-- Embeds `_DELETED_ROUTE_TAG = "_CADWYN_DELETED_ROUTE"`. -/
def DELETED_ROUTE_TAG : String := "_CADWYN_DELETED_ROUTE"

/-- Modelled from the spec: the hidden cadwyn request parameter name constant
`_CADWYN_REQUEST_PARAM_NAME` imported from `cadwyn.structure.versions`, whose
definition is not under `src/`; the spec only says generation assigns "the
hidden cadwyn request/response parameter names".  The exact string is
irrelevant to every claim. -/
def CADWYN_REQUEST_PARAM_NAME : String := "cadwyn_request_param"

/-- Modelled from the spec: the hidden cadwyn response parameter name constant
`_CADWYN_RESPONSE_PARAM_NAME` (see `CADWYN_REQUEST_PARAM_NAME`). -/
def CADWYN_RESPONSE_PARAM_NAME : String := "cadwyn_response_param"

/-- Python `set.issubset`: every element of `xs` occurs in `ys`. -/
def subsetOf (xs ys : List String) : Bool :=
  xs.all fun m => ys.contains m

/-- Python set union on method lists (order-normalized: keeps `a`'s order and
appends the new elements of `b`). -/
def listUnionStr (a b : List String) : List String :=
  a ++ b.filter fun m => !a.contains m

/-- Union of the `methods` sets of a list of routes (`method_union` loops in
`routing.py`, and `methods_to_which_we_applied_changes` accumulation). -/
def methodsUnion (rs : List Route) : List String :=
  rs.foldl (fun acc r => listUnionStr acc r.methods) []

/-- Matching condition of `_get_routes` for one `APIRoute`: path equality,
method-set inclusion in the queried methods, optional handler-name equality,
and deleted-marker state equal to the requested state. -/
def routeMatchesB (r : Route) (p : String) (ms : List String)
    (fn : Option String) (isDel : Bool) : Bool :=
  r.path == p && subsetOf r.methods ms &&
    (match fn with
     | none => true
     | some n => r.funcName == n) &&
    (r.tags.contains DELETED_ROUTE_TAG == isDel)

/-- Embeds `_get_routes(routes, endpoint_path, endpoint_methods,
endpoint_func_name, is_deleted=...)`: collect every `APIRoute` satisfying the
matching condition, skipping non-`APIRoute` entries. -/
def getRoutes (routes : List BRoute) (p : String) (ms : List String)
    (fn : Option String) (isDel : Bool) : List Route :=
  routes.filterMap fun br =>
    match br with
    | .api r => if routeMatchesB r p ms fn isDel then some r else none
    | .nonApi _ => none

/-- Error raised during router generation.  Each constructor corresponds to
one `raise` site in `routing.py` and carries the data its message names. -/
inductive GenErr where
  | missingVersionDir (dir : String)
  | doubleDeletion (versionChangeName : String) (path : String)
      (methods : List String) (funcNames : List String)
  | alreadyExisted (versionChangeName : String) (path : String)
      (methods : List String) (funcNames : List String)
  | ambiguousRestore (versionChangeName : String) (path : String)
      (methods : List String) (funcNames : List String)
  | tooManyNeverExistedMatches (versionChangeName : String) (path : String)
      (funcNames : List String)
  | redundantAttr (attrName : String) (methods : List String) (path : String)
      (versionChangeName : String)
  | methodDiff (template : String) (methods : List String) (path : String)
      (versionChangeName : String)
  | neverRestored (routes : List Route)
  | notAsync (funcName : String)
deriving DecidableEq

/-- Modelled from the spec: the endpoint instructions
(`EndpointDidntExistInstruction`, `EndpointExistedInstruction`,
`EndpointHadInstruction`) are defined in `cadwyn.structure.endpoints`, which is
not under `src/`; the spec describes them as declaring an endpoint
removed / restored / attribute-changed, identified by path, method set and
optional handler name.  For the `had` form, `attributes` lists the
instruction's dataclass fields in order, `none` standing for the `Sentinel`
(unset) value. -/
inductive EndpointInstruction where
  | didntExist (path : String) (methods : List String) (funcName : Option String)
  | existed (path : String) (methods : List String) (funcName : Option String)
  | had (path : String) (methods : List String) (funcName : Option String)
      (attributes : List (String × Option AttrVal))
deriving DecidableEq

/-- Queried path of an instruction (`instruction.endpoint_path`). -/
def EndpointInstruction.path : EndpointInstruction → String
  | .didntExist p _ _ => p
  | .existed p _ _ => p
  | .had p _ _ _ => p

/-- Queried method set of an instruction (`instruction.endpoint_methods`). -/
def EndpointInstruction.methods : EndpointInstruction → List String
  | .didntExist _ ms _ => ms
  | .existed _ ms _ => ms
  | .had _ ms _ _ => ms

/-- Looks up a named attribute on a route (Python `getattr(route, name)`
restricted to the mutable attribute store). -/
def getAttr (r : Route) (n : String) : AttrVal :=
  match r.attrs.lookup n with
  | some v => v
  | none => .noneV

/-- Replaces (or appends) a binding in an attribute store. -/
def setAttrList : List (String × AttrVal) → String → AttrVal → List (String × AttrVal)
  | [], n, v => [(n, v)]
  | (k, w) :: t, n, v => if k = n then (n, v) :: t else (k, w) :: setAttrList t n v

/-- Python `setattr(route, name, value)` on the attribute store. -/
def setAttr (r : Route) (n : String) (v : AttrVal) : Route :=
  { r with attrs := setAttrList r.attrs n v }

/-- Embeds `_apply_endpoint_had_instruction`: walk the instruction's dataclass
fields in order; skip fields left at the `Sentinel`; for a set field, raise if
the route's current value already equals the target value, otherwise overwrite
it and continue. -/
def applyEndpointHadInstruction (versionChangeName : String)
    (attributes : List (String × Option AttrVal)) (r : Route) :
    Except GenErr Route :=
  match attributes with
  | [] => .ok r
  | (_, none) :: rest => applyEndpointHadInstruction versionChangeName rest r
  | (name, some v) :: rest =>
      if getAttr r name = v then
        .error (.redundantAttr name r.methods r.path versionChangeName)
      else
        applyEndpointHadInstruction versionChangeName rest (setAttr r name v)

/-- Python `frozenset` equality of two method lists. -/
def methodSetEq (a b : List String) : Bool :=
  subsetOf a b && subsetOf b a

/-- Equality of `_EndpointInfo(route.path, frozenset(route.methods))` keys. -/
def sameEndpointInfo (r1 r2 : Route) : Bool :=
  r1.path == r2.path && methodSetEq r1.methods r2.methods

/-- Embeds `_validate_no_repetitions_in_routes`: scan the routes, remembering
seen `(path, frozenset(methods))` keys; return the first route whose key was
already seen, together with the remembered route (the payload of
`RouteAlreadyExistsError`), or `none` when there is no repetition. -/
def findRepeatedRoute : List Route → List Route → Option (Route × Route)
  | [], _ => none
  | r :: rest, seen =>
      match seen.find? fun s => sameEndpointInfo s r with
      | some s => some (r, s)
      | none => findRepeatedRoute rest (seen ++ [r])

/-- Message template of the method-difference error in the
`EndpointDidntExistInstruction` branch (the `err` variable in
`_apply_endpoint_changes_to_router`). -/
def deleteErrTemplate : String :=
  "Endpoint \"\x7bendpoint_methods\x7d \x7bendpoint_path\x7d\" you tried to delete in \"\x7bversion_change_name\x7d\" doesn\x27t exist in a newer version"

/-- Message template of the method-difference error in the
`EndpointExistedInstruction` branch. -/
def restoreErrTemplate : String :=
  "Endpoint \"\x7bendpoint_methods\x7d \x7bendpoint_path\x7d\" you tried to restore in \"\x7bversion_change_name\x7d\" wasn\x27t among the deleted routes"

/-- Message template of the method-difference error in the
`EndpointHadInstruction` branch. -/
def changeErrTemplate : String :=
  "Endpoint \"\x7bendpoint_methods\x7d \x7bendpoint_path\x7d\" you tried to change in \"\x7bversion_change_name\x7d\" doesn\x27t exist"

/-- Tagging loop of the `EndpointDidntExistInstruction` branch:
`original_route.tags.append(_DELETED_ROUTE_TAG)` for every matched active
route (mutation modelled as a map over the route list). -/
def tagMatchedRoutes (routes : List BRoute) (p : String) (ms : List String)
    (fn : Option String) : List BRoute :=
  routes.map fun br =>
    match br with
    | .api r =>
        if routeMatchesB r p ms fn false then
          .api { r with tags := r.tags ++ [DELETED_ROUTE_TAG] }
        else
          .api r
    | x => x

/-- Untagging loop of the `EndpointExistedInstruction` branch:
`deleted_route.tags.remove(_DELETED_ROUTE_TAG)` for every matched deleted
route (Python `list.remove` removes the first occurrence). -/
def untagMatchedRoutes (routes : List BRoute) (p : String) (ms : List String)
    (fn : Option String) : List BRoute :=
  routes.map fun br =>
    match br with
    | .api r =>
        if routeMatchesB r p ms fn true then
          .api { r with tags := r.tags.erase DELETED_ROUTE_TAG }
        else
          .api r
    | x => x

/-- Bookkeeping loop of the `EndpointExistedInstruction` branch over
`self.routes_that_never_existed`: for each restored route, look it up among the
never-restored parent routes (by its path, methods and function name, deleted
state `True`); exactly one match is removed, more than one raises. -/
def removeRestoredFromNeverExisted (versionChangeName : String) :
    List Route → List Route → Except GenErr (List Route)
  | [], ne => .ok ne
  | dr :: rest, ne =>
      match getRoutes (ne.map BRoute.api) dr.path dr.methods (some dr.funcName) true with
      | [] => removeRestoredFromNeverExisted versionChangeName rest ne
      | [m] => removeRestoredFromNeverExisted versionChangeName rest (ne.erase m)
      | ms' => .error (.tooManyNeverExistedMatches versionChangeName dr.path
          (ms'.map fun r => r.funcName))

/-- Mutation loop of the `EndpointHadInstruction` branch: apply the
instruction to every matched active route, in list order, propagating the
first redundant-attribute error. -/
def applyHadToRoutes (versionChangeName : String) (p : String)
    (ms : List String) (fn : Option String)
    (attributes : List (String × Option AttrVal)) :
    List BRoute → Except GenErr (List BRoute)
  | [] => .ok []
  | .nonApi x :: rest => do
      let rest' ← applyHadToRoutes versionChangeName p ms fn attributes rest
      return .nonApi x :: rest'
  | .api r :: rest =>
      if routeMatchesB r p ms fn false then do
        let r' ← applyEndpointHadInstruction versionChangeName attributes r
        let rest' ← applyHadToRoutes versionChangeName p ms fn attributes rest
        return .api r' :: rest'
      else do
        let rest' ← applyHadToRoutes versionChangeName p ms fn attributes rest
        return .api r :: rest'

/-- Branch-specific part of the per-instruction body of
`_apply_endpoint_changes_to_router` (everything before the final
`method_diff` check).  Returns the mutated route list, the updated
`routes_that_never_existed` bookkeeping list, the methods to which changes
were applied, and the branch's `err` message template. -/
def applyInstrCore (versionChangeName : String) (neverExisted : List Route)
    (routes : List BRoute) (i : EndpointInstruction) :
    Except GenErr (List BRoute × List Route × List String × String) :=
  match i with
  | .didntExist p ms fn =>
      let originalRoutes := getRoutes routes p ms fn false
      let deletedRoutes := getRoutes routes p ms fn true
      if !deletedRoutes.isEmpty then
        .error (.doubleDeletion versionChangeName p (methodsUnion deletedRoutes)
          (deletedRoutes.map fun r => r.funcName))
      else
        .ok (tagMatchedRoutes routes p ms fn, neverExisted,
          methodsUnion originalRoutes, deleteErrTemplate)
  | .existed p ms fn =>
      let originalRoutes := getRoutes routes p ms fn false
      if !originalRoutes.isEmpty then
        .error (.alreadyExisted versionChangeName p (methodsUnion originalRoutes)
          (originalRoutes.map fun r => r.funcName))
      else
        let deletedRoutes := getRoutes routes p ms fn true
        match findRepeatedRoute deletedRoutes [] with
        | some (r1, r2) =>
            .error (.ambiguousRestore versionChangeName p ms [r1.funcName, r2.funcName])
        | none => do
            let ne' ← removeRestoredFromNeverExisted versionChangeName deletedRoutes neverExisted
            .ok (untagMatchedRoutes routes p ms fn, ne',
              methodsUnion deletedRoutes, restoreErrTemplate)
  | .had p ms fn attributes => do
      let originalRoutes := getRoutes routes p ms fn false
      let routes' ← applyHadToRoutes versionChangeName p ms fn attributes routes
      .ok (routes', neverExisted, methodsUnion originalRoutes, changeErrTemplate)

/-- Per-instruction body of `_apply_endpoint_changes_to_router`: the branch
dispatch followed by the `method_diff` consistency check
(`methods_we_should_have_applied_changes_to` minus
`methods_to_which_we_applied_changes`). -/
def applyInstruction (versionChangeName : String) (neverExisted : List Route)
    (routes : List BRoute) (i : EndpointInstruction) :
    Except GenErr (List BRoute × List Route) :=
  match applyInstrCore versionChangeName neverExisted routes i with
  | .error e => .error e
  | .ok (routes', ne', applied, errTemplate) =>
      let diff := i.methods.filter fun m => !applied.contains m
      if diff.isEmpty then .ok (routes', ne')
      else .error (.methodDiff errTemplate diff i.path versionChangeName)

/-- Embeds a `VersionChange` as far as endpoint generation consumes it: its
class name and its `alter_endpoint_instructions` list (the data-migration
instruction lists play no role in the route-structural claims). -/
structure VersionChange where
  name : String
  alterEndpointInstructions : List EndpointInstruction
deriving DecidableEq

/-- Embeds a `Version`: its date value (rendered as a string) and its ordered
version changes. -/
structure Version where
  value : String
  versionChanges : List VersionChange
deriving DecidableEq

/-- Instruction loop of `_apply_endpoint_changes_to_router` for one version
change. -/
def applyVersionChange (vc : VersionChange)
    (st : List BRoute × List Route) : Except GenErr (List BRoute × List Route) :=
  vc.alterEndpointInstructions.foldlM
    (fun acc i => applyInstruction vc.name acc.2 acc.1 i) st

/-- Embeds `_apply_endpoint_changes_to_router`: apply every version change of
the version, in order, to the router's routes, threading the
`routes_that_never_existed` bookkeeping list. -/
def applyEndpointChangesToRouter (v : Version)
    (st : List BRoute × List Route) : Except GenErr (List BRoute × List Route) :=
  v.versionChanges.foldlM (fun acc vc => applyVersionChange vc acc) st

/-- Input of `generate_versioned_routers` as far as the structural claims
observe it: the latest (parent) router's routes, the version bundle, and
which versioned schema directories exist on disk.  The versions are listed
newest first.  Modelled from the spec where the collaborators are not under
`src/`: `VersionBundle` iteration order ("walking from latest backwards to
oldest") and the directory-existence check (a version's directory exists iff
its date value is listed in `existingDirs`). -/
structure GenInput where
  parentRoutes : List BRoute
  versions : List Version
  existingDirs : List String
deriving DecidableEq

/-- Embeds `_add_request_and_response_params`: set each unset (falsy)
dependant parameter name to the hidden cadwyn constant, leaving set names
alone. -/
def addRequestAndResponseParams (r : Route) : Route :=
  let d := r.dependant
  let d :=
    if d.requestParamName = none then
      { d with requestParamName := some CADWYN_REQUEST_PARAM_NAME }
    else d
  let d :=
    if d.responseParamName = none then
      { d with responseParamName := some CADWYN_RESPONSE_PARAM_NAME }
    else d
  { r with dependant := d }

/-- Structural effect of `_remake_endpoint_dependencies` on a route:
`get_dependant` rebuilds the dependant from the endpoint's signature (so the
parameter names revert to the handler's own), then
`_add_request_and_response_params` fills the unset ones with the cadwyn
constants.  The annotation content rebuilt here is irrelevant to the
route-structural claims. -/
def remakeEndpointDependencies (r : Route) : Route :=
  addRequestAndResponseParams
    { r with dependant := ⟨r.handlerReqParam, r.handlerRespParam⟩ }

/-- Structural effect of
`_AnnotationTransformer.migrate_router_to_version(router, version)`: check
that the version's schema directory exists (else
`RouterGenerationError`), then rewrite every `APIRoute` in place, each rewrite
ending in `_remake_endpoint_dependencies`.  Non-`APIRoute` entries are
skipped. -/
def migrateRouterToVersion (inp : GenInput) (v : Version)
    (routes : List BRoute) : Except GenErr (List BRoute) :=
  if inp.existingDirs.contains v.value then
    .ok (routes.map fun br =>
      match br with
      | .api r => .api (remakeEndpointDependencies r)
      | x => x)
  else
    .error (.missingVersionDir v.value)

/-- Main loop of `_EndpointTransformer.transform`: for each version (newest
first), migrate the working copy of the router to that version, record the
result in `router_infos`, then deep-copy it and apply the version's endpoint
changes to derive the next older snapshot.  Returns the recorded
`router_infos` and the final `routes_that_never_existed` list. -/
def transformLoop (inp : GenInput) :
    List Version → List BRoute → List (String × List BRoute) → List Route →
    Except GenErr (List (String × List BRoute) × List Route)
  | [], _, infos, ne => .ok (infos, ne)
  | v :: rest, router, infos, ne =>
      match migrateRouterToVersion inp v router with
      | .error e => .error e
      | .ok router' =>
          match applyEndpointChangesToRouter v (router', ne) with
          | .error e => .error e
          | .ok (router'', ne') =>
              transformLoop inp rest router'' (infos ++ [(v.value, router')]) ne'

/-- Per-version inner check of the wrapping loop of `transform`:
`_add_data_migrations_to_route(older_route, ...)` raises when the older
route's endpoint is not an async callable.  (The route at the same positional
index in every recorded router corresponds to the parent route, per the
code's explicit order assumption.) -/
def checkOlderRoutesAsync (infos : List (String × List BRoute)) (i : Nat) :
    Except GenErr Unit :=
  match infos with
  | [] => .ok ()
  | (_, rts) :: rest =>
      match rts[i]? with
      | some (.api o) =>
          if !o.endpointIsAsync then .error (.notAsync o.funcName)
          else checkOlderRoutesAsync rest i
      | _ => checkOlderRoutesAsync rest i

/-- Wrapping loop of `transform` (`for route_index, latest_route in
enumerate(self.parent_router.routes)`): skip non-`APIRoute` entries; for each
`APIRoute` of the parent router, `_add_request_and_response_params` mutates
the parent route in place, then every recorded router's route at the same
index gets its migration wrapper attached (structurally: the async-endpoint
check).  Returns the parent routes as mutated by the loop. -/
def wrapRoutes (infos : List (String × List BRoute)) :
    List BRoute → Nat → Except GenErr (List BRoute)
  | [], _ => .ok []
  | .nonApi x :: rest, i => do
      let rest' ← wrapRoutes infos rest (i + 1)
      return .nonApi x :: rest'
  | .api r :: rest, i => do
      let r' := addRequestAndResponseParams r
      checkOlderRoutesAsync infos i
      let rest' ← wrapRoutes infos rest (i + 1)
      return .api r' :: rest'

/-- Final loop of `transform`: strip every `APIRoute` carrying the
deleted-route tag from each recorded router's routes. -/
def stripDeleted (infos : List (String × List BRoute)) :
    List (String × List BRoute) :=
  infos.map fun vr =>
    (vr.1, vr.2.filter fun br =>
      match br with
      | .api r => !r.tags.contains DELETED_ROUTE_TAG
      | .nonApi _ => true)

/-- Initialization of `self.routes_that_never_existed` in
`_EndpointTransformer.__init__`: the parent router's `APIRoute`s already
carrying the deleted-route tag. -/
def initNeverExisted (routes : List BRoute) : List Route :=
  routes.filterMap fun br =>
    match br with
    | .api r => if r.tags.contains DELETED_ROUTE_TAG then some r else none
    | .nonApi _ => none

/-- Embeds `_EndpointTransformer.transform` structurally: run the main loop
from a deep copy of the parent routes; raise `RouterGenerationError` when
routes marked "only exists in older versions" were never restored; run the
wrapping loop (which mutates the parent router's routes in place — the
mutated parent routes are returned as the second component); finally strip
deleted-tagged routes from every version's result and return the
version-to-routes mapping. -/
def transform (inp : GenInput) :
    Except GenErr (List (String × List BRoute) × List BRoute) :=
  match transformLoop inp inp.versions inp.parentRoutes []
      (initNeverExisted inp.parentRoutes) with
  | .error e => .error e
  | .ok (infos, ne) =>
      if !ne.isEmpty then .error (.neverRestored ne)
      else
        match wrapRoutes infos inp.parentRoutes 0 with
        | .error e => .error e
        | .ok newParent => .ok (stripDeleted infos, newParent)

/-- Embeds `generate_versioned_routers`, which just delegates to
`_EndpointTransformer(...).transform()`. -/
def generateVersionedRouters (inp : GenInput) :
    Except GenErr (List (String × List BRoute) × List BRoute) :=
  transform inp

/-
Annotation model for `_AnnotationTransformer`.  A Python annotation value is
embedded as `Ann`.  Objects that Python compares by identity (functions,
`Depends` wrappers, `NewType` aliases, opaque values) carry a numeric id, so
Lean equality on `Ann` coincides with Python `==` on the embedded values:
Python compares functions and `Depends` objects by identity, and containers,
generic aliases and unions structurally.  A class object is determined by the
module directory it lives in and its name (`getattr(module, name)`), so a
`typ` value is identity-faithful without an id.
-/

mutual
/-- Embedded Python annotation value (the shapes
`_change_version_of_annotations` / `_change_versions_of_a_non_container_annotation`
dispatch on, in their `isinstance` order): a dict, a list, a tuple, a
parameterized generic alias, a fastapi `Depends` wrapper, a union, `Any`, a
`NewType` alias, a concrete class (with its `issubclass(_, BaseModel | Enum)`
status, name, module directory and physical source file), a plain callable
(with its coroutine-ness, `__annotations__` and the defaults of its
parameters), or any other (non-callable) object. -/
inductive Ann where
  | pydict (kvs : KVList)
  | pylist (elems : AnnList)
  | pytuple (elems : AnnList)
  | generic (origin : Nat) (args : AnnList)
  | depends (id : Nat) (dep : Ann) (useCache : Bool)
  | unionT (args : AnnList)
  | anyT
  | newtype (id : Nat)
  | typ (isModelOrEnum : Bool) (name : String) (dir : String) (src : Option String)
  | func (id : Nat) (isCoro : Bool) (annots : KVList) (defaults : AnnList)
  | other (id : Nat)

/-- Spine of annotation elements (list / tuple / generic arguments). -/
inductive AnnList where
  | nil
  | cons (hd : Ann) (tl : AnnList)

/-- Spine of key-value annotation pairs (a Python dict, in insertion order). -/
inductive KVList where
  | nil
  | cons (k : Ann) (v : Ann) (tl : KVList)
end

deriving instance DecidableEq for Ann, AnnList, KVList

/-- Configuration of one `_AnnotationTransformer`: the `version_dirs`
frozenset (the latest package's own path plus one directory per version), and
the world of class definitions.  `classes name dir` gives the
`issubclass(_, BaseModel | Enum)` status and the physical source file of the
class named `name` in the schema module living in `dir` — modelled from the
spec's schema-module contract ("for each version, a directory/module holding
that version's variant of every schema/type"), since the module loading
itself (`get_another_version_of_module` in `cadwyn._utils`) is not under
`src/`. -/
structure AnnCfg where
  versionDirs : List String
  classes : String → String → Bool × Option String

/-- Lexicographic comparison of character lists (Python string `<` compares
strings lexicographically by code point). -/
def charListLt : List Char → List Char → Bool
  | [], [] => false
  | [], _ :: _ => true
  | _ :: _, [] => false
  | a :: as, b :: bs =>
      if a < b then true
      else if b < a then false
      else charListLt as bs

/-- Python string `<` on path strings. -/
def strLtB (a b : String) : Bool := charListLt a.data b.data

/-- Python `min` on two path strings. -/
def strMin (a b : String) : String := if strLtB a b then a else b

/-- Python `max` on two path strings. -/
def strMax (a b : String) : String := if strLtB a b then b else a

/-- Prefix test on character lists. -/
def charIsPre : List Char → List Char → Bool
  | [], _ => true
  | _ :: _, [] => false
  | a :: as, b :: bs => a == b && charIsPre as bs

/-- Python `str.startswith` on paths (character-level). -/
def strStartsWith (s pre : String) : Bool := charIsPre pre.data s.data

/-- Embeds `self.template_version_dir = min(self.version_dirs)` (the `latest`
package's own directory: `"latest" < "v0000_00_00"`). -/
def templateVersionDir (cfg : AnnCfg) : String :=
  match cfg.versionDirs with
  | [] => ""
  | h :: t => t.foldl strMin h

/-- Embeds `self.latest_version_dir = max(self.version_dirs)` (the newest
dated version directory: `"v2005_11_11" > "v2000_11_11"`). -/
def latestVersionDir (cfg : AnnCfg) : String :=
  match cfg.versionDirs with
  | [] => ""
  | h :: t => t.foldl strMax h

/-- Python `str(Path(s).parent)`: drop the last `/`-separated component
(`"."` when the path has a single component). -/
def parentDirStr (s : String) : String :=
  if s.data.contains '/' then
    String.mk (((s.data.reverse.dropWhile fun c => c != '/').drop 1).reverse)
  else "."

/-- Embeds `dir_with_versions = str(self.template_version_dir.parent)`. -/
def dirWithVersions (cfg : AnnCfg) : String :=
  parentDirStr (templateVersionDir cfg)

/-- Error raised by the annotation transformer
(`RouterGenerationError` from
`_validate_source_file_is_located_in_template_dir`), carrying the data its
message names: the annotation, the template directory it should live in, and
where it was actually defined. -/
inductive AnnErr where
  | notInTemplateDir (annotationName : String) (templateDir : String) (definedIn : String)
deriving DecidableEq

/-- Embeds `_validate_source_file_is_located_in_template_dir`: raise iff the
source file is under the directory shared by all version modules, not under
the template directory, and under some version directory. -/
def validateSourceFileInTemplateDir (cfg : AnnCfg) (name : String)
    (sourceFile : String) : Except AnnErr Unit :=
  if strStartsWith sourceFile (dirWithVersions cfg) &&
      !strStartsWith sourceFile (templateVersionDir cfg) &&
      cfg.versionDirs.any (fun d => strStartsWith sourceFile d) then
    .error (.notInTemplateDir name (templateVersionDir cfg) sourceFile)
  else
    .ok ()

/-- Modelled from the spec: `get_another_version_of_module` (in
`cadwyn._utils`, not under `src/`) raises `ModuleIsNotVersionedError` when the
class's module has no versioned sibling; per the spec a module is versioned
iff its directory is one of the version directories. -/
def isVersionedModuleDir (cfg : AnnCfg) (dir : String) : Bool :=
  cfg.versionDirs.contains dir

/-- Class object named `name` living in the schema module of directory `d`
(the result of `getattr(module, cls.__name__)`). -/
def clsAnnIn (cfg : AnnCfg) (name : String) (d : String) : Ann :=
  .typ (cfg.classes name d).1 name d (cfg.classes name d).2

/-- Embeds `get_another_version_of_cls`: resolve the same-named class in the
target version directory, returning the class unchanged when its module is
not versioned (`ModuleIsNotVersionedError` short-circuit). -/
def getAnotherVersionOfCls (cfg : AnnCfg) (isModelOrEnum : Bool)
    (name : String) (dir : String) (src : Option String)
    (newVersionDir : String) : Ann :=
  if isVersionedModuleDir cfg dir then clsAnnIn cfg name newVersionDir
  else .typ isModelOrEnum name dir src

/-- Embeds `_change_version_of_type`: for a schema model or enumeration,
validate the source location when the target is `latest_version_dir` (a
missing source file only warns), then resolve the class in the target
directory; any other class is returned unchanged. -/
def changeVersionOfType (cfg : AnnCfg) (isModelOrEnum : Bool) (name : String)
    (dir : String) (src : Option String) (versionDir : String) :
    Except AnnErr Ann :=
  if isModelOrEnum then
    match
      (if versionDir = latestVersionDir cfg then
        match src with
        | none => Except.ok ()
        | some f => validateSourceFileInTemplateDir cfg name f
      else Except.ok ()) with
    | .error e => .error e
    | .ok _ => .ok (getAnotherVersionOfCls cfg isModelOrEnum name dir src versionDir)
  else
    .ok (.typ isModelOrEnum name dir src)

/-- State of one annotation-rewriting run: a fresh-id counter (Python object
identities of newly created callables / wrappers) and the per-transformer
`functools.cache` of `change_versions_of_a_non_container_annotation`, keyed by
`(annotation, version_dir)`. -/
structure RwState where
  fresh : Nat
  cache : List ((Ann × String) × Ann)
deriving DecidableEq

/-- Lookup in the memoization cache (first entry with an equal key, as in a
Python dict keyed by argument equality). -/
def cacheLookup : List ((Ann × String) × Ann) → Ann × String → Option Ann
  | [], _ => none
  | (k, v) :: t, q => if k = q then some v else cacheLookup t q

/-- Record a computed result in the memoization cache. -/
def cachePut (s : RwState) (k : Ann) (d : String) (v : Ann) : RwState :=
  ⟨s.fresh, ((k, d), v) :: s.cache⟩

mutual
/-- Embeds `_change_version_of_annotations` together with the memoized
`_change_versions_of_a_non_container_annotation` it dispatches to: dicts,
lists and tuples are rebuilt with members recursively rewritten; every other
annotation goes through the per-`(annotation, version_dir)` cache, whose body
follows the `isinstance` chain of the non-container method — a parameterized
generic is rebuilt from rewritten arguments, a `Depends` wrapper is rebuilt
(a fresh object) around its rewritten dependency preserving `use_cache`, a
union is rebuilt from rewritten members, `Any` and `NewType` aliases are
returned unchanged, a concrete class goes to `_change_version_of_type`, a
callable is rebuilt as a fresh callable with rewritten `__annotations__` and
`__defaults__` preserving sync/async-ness, and anything else is returned
unchanged. -/
def rewriteAnn (cfg : AnnCfg) (a : Ann) (D : String) (s : RwState) :
    Except AnnErr (Ann × RwState) :=
  match a with
  | .pydict kvs => do
      let (kvs', s') ← rewriteKVs cfg kvs D s
      return (.pydict kvs', s')
  | .pylist es => do
      let (es', s') ← rewriteList cfg es D s
      return (.pylist es', s')
  | .pytuple es => do
      let (es', s') ← rewriteList cfg es D s
      return (.pytuple es', s')
  | .generic o args =>
      match cacheLookup s.cache (.generic o args, D) with
      | some v => .ok (v, s)
      | none => do
          let (args', s') ← rewriteList cfg args D s
          return (.generic o args', cachePut s' (.generic o args) D (.generic o args'))
  | .depends i dep uc =>
      match cacheLookup s.cache (.depends i dep uc, D) with
      | some v => .ok (v, s)
      | none => do
          let (dep', s') ← rewriteAnn cfg dep D s
          let r := Ann.depends s'.fresh dep' uc
          return (r, cachePut ⟨s'.fresh + 1, s'.cache⟩ (.depends i dep uc) D r)
  | .unionT args =>
      match cacheLookup s.cache (.unionT args, D) with
      | some v => .ok (v, s)
      | none => do
          let (args', s') ← rewriteList cfg args D s
          return (.unionT args', cachePut s' (.unionT args) D (.unionT args'))
  | .anyT =>
      match cacheLookup s.cache (.anyT, D) with
      | some v => .ok (v, s)
      | none => .ok (.anyT, cachePut s .anyT D .anyT)
  | .newtype i =>
      match cacheLookup s.cache (.newtype i, D) with
      | some v => .ok (v, s)
      | none => .ok (.newtype i, cachePut s (.newtype i) D (.newtype i))
  | .typ f n dir src =>
      match cacheLookup s.cache (.typ f n dir src, D) with
      | some v => .ok (v, s)
      | none =>
          match changeVersionOfType cfg f n dir src D with
          | .error e => .error e
          | .ok r => .ok (r, cachePut s (.typ f n dir src) D r)
  | .func i c annots defaults =>
      match cacheLookup s.cache (.func i c annots defaults, D) with
      | some v => .ok (v, s)
      | none => do
          let (annots', s1) ← rewriteKVs cfg annots D s
          let (defaults', s2) ← rewriteList cfg defaults D s1
          let r := Ann.func s2.fresh c annots' defaults'
          return (r, cachePut ⟨s2.fresh + 1, s2.cache⟩ (.func i c annots defaults) D r)
  | .other i =>
      match cacheLookup s.cache (.other i, D) with
      | some v => .ok (v, s)
      | none => .ok (.other i, cachePut s (.other i) D (.other i))
termination_by structural a

/-- Element-wise rewriting of a list/tuple/argument spine. -/
def rewriteList (cfg : AnnCfg) (l : AnnList) (D : String) (s : RwState) :
    Except AnnErr (AnnList × RwState) :=
  match l with
  | .nil => .ok (.nil, s)
  | .cons h t => do
      let (h', s1) ← rewriteAnn cfg h D s
      let (t', s2) ← rewriteList cfg t D s1
      return (.cons h' t', s2)
termination_by structural l

/-- Pair-wise rewriting of a dict spine (both keys and values rewritten). -/
def rewriteKVs (cfg : AnnCfg) (l : KVList) (D : String) (s : RwState) :
    Except AnnErr (KVList × RwState) :=
  match l with
  | .nil => .ok (.nil, s)
  | .cons k v t => do
      let (k', s1) ← rewriteAnn cfg k D s
      let (v', s2) ← rewriteAnn cfg v D s1
      let (t', s3) ← rewriteKVs cfg t D s2
      return (.cons k' v' t', s3)
termination_by structural l
end

mutual
/-- Value computed by `rewriteAnn` on annotations that contain no callable and
no `Depends` wrapper: for those shapes rewriting is a pure function of the
annotation and the target directory (no fresh object is created, and the
source-location validation can only raise, never change the value). -/
def pureRW (cfg : AnnCfg) (a : Ann) (D : String) : Ann :=
  match a with
  | .pydict kvs => .pydict (pureKVs cfg kvs D)
  | .pylist es => .pylist (pureList cfg es D)
  | .pytuple es => .pytuple (pureList cfg es D)
  | .generic o args => .generic o (pureList cfg args D)
  | .depends i dep uc => .depends i dep uc
  | .unionT args => .unionT (pureList cfg args D)
  | .anyT => .anyT
  | .newtype i => .newtype i
  | .typ f n dir src =>
      if f then getAnotherVersionOfCls cfg f n dir src D
      else .typ f n dir src
  | .func i c annots defaults => .func i c annots defaults
  | .other i => .other i
termination_by structural a

/-- Element-wise `pureRW` on a spine. -/
def pureList (cfg : AnnCfg) (l : AnnList) (D : String) : AnnList :=
  match l with
  | .nil => .nil
  | .cons h t => .cons (pureRW cfg h D) (pureList cfg t D)
termination_by structural l

/-- Pair-wise `pureRW` on a dict spine. -/
def pureKVs (cfg : AnnCfg) (l : KVList) (D : String) : KVList :=
  match l with
  | .nil => .nil
  | .cons k v t => .cons (pureRW cfg k D) (pureRW cfg v D) (pureKVs cfg t D)
termination_by structural l
end

mutual
/-- True when the annotation contains no callable and no `Depends` wrapper,
i.e. rewriting it never creates a fresh object. -/
def noFreshA : Ann → Bool
  | .pydict kvs => noFreshKVs kvs
  | .pylist es => noFreshL es
  | .pytuple es => noFreshL es
  | .generic _ args => noFreshL args
  | .depends _ _ _ => false
  | .unionT args => noFreshL args
  | .anyT => true
  | .newtype _ => true
  | .typ _ _ _ _ => true
  | .func _ _ _ _ => false
  | .other _ => true
termination_by structural a => a

/-- Spine version of `noFreshA`. -/
def noFreshL : AnnList → Bool
  | .nil => true
  | .cons h t => noFreshA h && noFreshL t
termination_by structural l => l

/-- Dict-spine version of `noFreshA`. -/
def noFreshKVs : KVList → Bool
  | .nil => true
  | .cons k v t => noFreshA k && noFreshA v && noFreshKVs t
termination_by structural l => l
end

/-- Coherence of a memoization cache: every entry's key is a callable-free
annotation and its stored value is the pure rewrite of the key at the entry's
directory.  The empty cache of a fresh transformer is trivially coherent, and
rewriting callable-free annotations preserves coherence. -/
def CacheOK (cfg : AnnCfg) (c : List ((Ann × String) × Ann)) : Prop :=
  ∀ k d v, ((k, d), v) ∈ c → noFreshA k = true ∧ v = pureRW cfg k d

/-- Characterization of the boolean matching condition of `_get_routes`. -/
theorem routeMatchesB_iff (r : Route) (p : String) (ms : List String)
    (fn : Option String) (isDel : Bool) :
    routeMatchesB r p ms fn isDel = true ↔
      (r.path = p ∧ (∀ m ∈ r.methods, m ∈ ms) ∧
        (∀ n, fn = some n → r.funcName = n) ∧
        (r.tags.contains DELETED_ROUTE_TAG = isDel)) := by
  cases fn <;>
    simp [routeMatchesB, subsetOf, List.all_eq_true, List.elem_iff,
      List.contains, and_assoc]

/-- C2: for every route collection, query path, query method set, optional
handler name and requested deleted state, `_get_routes` returns exactly the
`APIRoute`s whose path equals the query path, whose method set is a subset of
the query method set, whose deleted-marker state equals the requested state,
and (when a handler name is given) whose handler's name equals the query
name; all matches are returned (no failure on multiple matches). -/
theorem C2_getRoutes_exact (routes : List BRoute) (p : String)
    (ms : List String) (fn : Option String) (isDel : Bool) (r : Route) :
    r ∈ getRoutes routes p ms fn isDel ↔
      (BRoute.api r ∈ routes ∧ r.path = p ∧ (∀ m ∈ r.methods, m ∈ ms) ∧
        (∀ n, fn = some n → r.funcName = n) ∧
        (r.tags.contains DELETED_ROUTE_TAG = isDel)) := by
  simp only [getRoutes, List.mem_filterMap]
  constructor
  · rintro ⟨br, hbr, hf⟩
    cases br with
    | api r' =>
        by_cases h : routeMatchesB r' p ms fn isDel = true
        · simp only [h, if_pos] at hf
          cases hf
          exact ⟨hbr, (routeMatchesB_iff r p ms fn isDel).mp h⟩
        · simp [h] at hf
    | nonApi _ => simp at hf
  · rintro ⟨hmem, hrest⟩
    exact ⟨.api r, hmem, by
      simp [(routeMatchesB_iff r p ms fn isDel).mpr hrest]⟩

/-- Concrete sample route used by witnesses: an active `GET /users` route. -/
def wUsers : Route :=
  ⟨"/users", ["GET"], "get_users", [], [], true, none, none, ⟨none, none⟩⟩

/-- Concrete sample route used by witnesses: an active `GET /pets` route. -/
def wPets : Route :=
  ⟨"/pets", ["GET"], "get_pets", [], [], true, none, none, ⟨none, none⟩⟩

/-- Witness for C2: on a concrete collection the characterization puts the
matching route in the result and keeps the mismatching one out. -/
theorem C2_witness :
    wUsers ∈ getRoutes [.api wUsers, .api wPets] "/users" ["GET", "POST"] none false ∧
      wPets ∉ getRoutes [.api wUsers, .api wPets] "/users" ["GET", "POST"] none false := by
  constructor
  · refine (C2_getRoutes_exact _ _ _ _ _ _).mpr ⟨by decide, by decide, ?_, ?_, by decide⟩
    · intro m hm; simp [wUsers] at hm; subst hm; decide
    · intro n hn; cases hn
  · intro hmem
    have h := (C2_getRoutes_exact [.api wUsers, .api wPets] "/users"
      ["GET", "POST"] none false wPets).mp hmem
    have : wPets.path = "/users" := h.2.1
    revert this; decide

/-- Reading back an attribute just written. -/
theorem lookup_setAttrList_same (l : List (String × AttrVal)) (n : String)
    (v : AttrVal) : (setAttrList l n v).lookup n = some v := by
  induction l with
  | nil => simp [setAttrList]
  | cons h t ih =>
      obtain ⟨k, w⟩ := h
      by_cases hk : k = n
      · subst hk; simp [setAttrList]
      · simp only [setAttrList, if_neg hk, List.lookup]
        have : (n == k) = false := by simp [Ne.symm hk]
        simp [this, ih]

/-- Writing one attribute leaves the others unchanged. -/
theorem lookup_setAttrList_ne (l : List (String × AttrVal)) (m n : String)
    (v : AttrVal) (h : m ≠ n) : (setAttrList l n v).lookup m = l.lookup m := by
  induction l with
  | nil =>
      have : (m == n) = false := by simp [h]
      simp [setAttrList, List.lookup, this]
  | cons hd t ih =>
      obtain ⟨k, w⟩ := hd
      by_cases hk : k = n
      · subst hk
        have : (m == k) = false := by simp [h]
        simp [setAttrList, List.lookup, this]
      · simp only [setAttrList, if_neg hk, List.lookup]
        by_cases hm : m = k
        · subst hm; simp
        · have : (m == k) = false := by simp [hm]
          simp [this, ih]

/-- `getAttr` after `setAttr` at the same name. -/
theorem getAttr_setAttr_same (r : Route) (n : String) (v : AttrVal) :
    getAttr (setAttr r n v) n = v := by
  simp [getAttr, setAttr, lookup_setAttrList_same]

/-- `getAttr` after `setAttr` at a different name. -/
theorem getAttr_setAttr_ne (r : Route) (m n : String) (v : AttrVal)
    (h : m ≠ n) : getAttr (setAttr r m v) n = getAttr r n := by
  simp [getAttr, setAttr, lookup_setAttrList_ne _ _ _ _ (Ne.symm h)]

/-- Frame lemma: applying an "endpoint had" instruction whose fields do not
mention `n` leaves attribute `n` unchanged. -/
theorem applyHad_frame (vc : String) (attributes : List (String × Option AttrVal))
    (r r' : Route) (n : String) (hn : ∀ p ∈ attributes, p.1 ≠ n)
    (h : applyEndpointHadInstruction vc attributes r = .ok r') :
    getAttr r' n = getAttr r n := by
  induction attributes generalizing r with
  | nil =>
      simp only [applyEndpointHadInstruction] at h
      cases h; rfl
  | cons hd t ih =>
      obtain ⟨m, tv⟩ := hd
      cases tv with
      | none =>
          simp only [applyEndpointHadInstruction] at h
          exact ih r (fun p hp => hn p (List.mem_cons_of_mem _ hp)) h
      | some v =>
          simp only [applyEndpointHadInstruction] at h
          by_cases hv : getAttr r m = v
          · simp [hv] at h
          · simp only [if_neg hv] at h
            have hrec := ih (setAttr r m v) (fun p hp => hn p (List.mem_cons_of_mem _ hp)) h
            have hmn : m ≠ n := hn (m, some v) (List.mem_cons_self _ _)
            rw [hrec, getAttr_setAttr_ne r m n v hmn]

/-- C4: applying an endpoint-had instruction to a matched active route, with
the instruction's dataclass fields carrying distinct names: if some field not
left at the sentinel targets a value the route already has, application fails
with a redundant-instruction error (never silently succeeds); if every such
field targets a different value, application succeeds and each named
attribute is overwritten with the instruction's target value. -/
theorem C4_had_redundant_or_overwrite (vc : String)
    (attributes : List (String × Option AttrVal)) (r : Route)
    (hnd : (attributes.map Prod.fst).Nodup) :
    ((∃ p ∈ attributes, ∃ v, p.2 = some v ∧ getAttr r p.1 = v) →
      ∃ n ms pa, applyEndpointHadInstruction vc attributes r =
        .error (.redundantAttr n ms pa vc)) ∧
    ((∀ p ∈ attributes, ∀ v, p.2 = some v → getAttr r p.1 ≠ v) →
      ∃ r', applyEndpointHadInstruction vc attributes r = .ok r' ∧
        ∀ p ∈ attributes, ∀ v, p.2 = some v → getAttr r' p.1 = v) := by
  induction attributes generalizing r with
  | nil =>
      refine ⟨fun h => ?_, fun _ => ⟨r, rfl, by simp⟩⟩
      obtain ⟨p, hp, _⟩ := h
      simp at hp
  | cons hd t ih =>
      obtain ⟨m, tv⟩ := hd
      have hnd' : (t.map Prod.fst).Nodup := (List.nodup_cons.mp hnd).2
      have hmf : m ∉ t.map Prod.fst := (List.nodup_cons.mp hnd).1
      cases tv with
      | none =>
          constructor
          · intro hex
            obtain ⟨p, hp, v, hv, hg⟩ := hex
            rcases List.mem_cons.mp hp with hph | hpt
            · rw [hph] at hv; cases hv
            · have := (ih r hnd').1 ⟨p, hpt, v, hv, hg⟩
              simpa [applyEndpointHadInstruction] using this
          · intro hall
            have := (ih r hnd').2 (fun p hp v hv => hall p (List.mem_cons_of_mem _ hp) v hv)
            obtain ⟨r', hr', hattrs⟩ := this
            refine ⟨r', by simpa [applyEndpointHadInstruction] using hr', ?_⟩
            intro p hp v hv
            rcases List.mem_cons.mp hp with hph | hpt
            · rw [hph] at hv; cases hv
            · exact hattrs p hpt v hv
      | some v =>
          constructor
          · intro hex
            by_cases hv : getAttr r m = v
            · exact ⟨m, r.methods, r.path, by simp [applyEndpointHadInstruction, hv]⟩
            · obtain ⟨p, hp, v', hv', hg⟩ := hex
              rcases List.mem_cons.mp hp with hph | hpt
              · rw [hph] at hv' hg
                cases hv'
                simp at hg
                exact absurd hg hv
              · have hne : p.1 ≠ m := by
                  intro hpe
                  exact hmf (hpe ▸ List.mem_map_of_mem Prod.fst hpt)
                have hg' : getAttr (setAttr r m v) p.1 = v' := by
                  rw [getAttr_setAttr_ne _ _ _ _ (Ne.symm hne)]
                  exact hg
                have := (ih (setAttr r m v) hnd').1 ⟨p, hpt, v', hv', hg'⟩
                obtain ⟨n, ms, pa, hres⟩ := this
                exact ⟨n, ms, pa, by simp [applyEndpointHadInstruction, hv, hres]⟩
          · intro hall
            have hv : getAttr r m ≠ v :=
              hall (m, some v) (List.mem_cons_self _ _) v rfl
            have hall' : ∀ p ∈ t, ∀ v', p.2 = some v' → getAttr (setAttr r m v) p.1 ≠ v' := by
              intro p hp v' hv'
              have hne : p.1 ≠ m := by
                intro hpe
                exact hmf (hpe ▸ List.mem_map_of_mem Prod.fst hp)
              rw [getAttr_setAttr_ne _ _ _ _ (Ne.symm hne)]
              exact hall p (List.mem_cons_of_mem _ hp) v' hv'
            obtain ⟨r', hr', hattrs⟩ := (ih (setAttr r m v) hnd').2 hall'
            refine ⟨r', by simp [applyEndpointHadInstruction, hv, hr'], ?_⟩
            intro p hp v' hv'
            rcases List.mem_cons.mp hp with hph | hpt
            · rw [hph] at hv' ⊢
              cases hv'
              have : getAttr r' m = getAttr (setAttr r m v) m :=
                applyHad_frame vc t (setAttr r m v) r' m
                  (fun q hq => fun hqe => hmf (hqe ▸ List.mem_map_of_mem Prod.fst hq)) hr'
              rw [this, getAttr_setAttr_same]
            · exact hattrs p hpt v' hv'

/-- Concrete sample route used by witnesses: a `POST /users` route whose
`status_code` attribute is already `204`. -/
def wUsers204 : Route :=
  ⟨"/users", ["POST"], "create_user", [], [("status_code", .nat 204)], true,
    none, none, ⟨none, none⟩⟩

/-- Witness for C4, at the spec's scenario: an "endpoint had status_code=204"
instruction against a route whose `status_code` is already `204` must fail
with a redundant-instruction error. -/
theorem C4_witness :
    (([("status_code", some (AttrVal.nat 204))].map Prod.fst).Nodup ∧
      ∃ n ms pa,
        applyEndpointHadInstruction "StatusChange"
            [("status_code", some (AttrVal.nat 204))] wUsers204 =
          .error (.redundantAttr n ms pa "StatusChange")) := by
  refine ⟨by decide, ?_⟩
  exact (C4_had_redundant_or_overwrite "StatusChange"
      [("status_code", some (AttrVal.nat 204))] wUsers204 (by decide)).1
    ⟨("status_code", some (AttrVal.nat 204)), by decide, AttrVal.nat 204, rfl, by decide⟩

/-- Reduction of a successful `Except` bind. -/
theorem exceptBindOk {α β ε : Type} (a : α) (f : α → Except ε β) :
    (Except.ok a >>= f) = f a := rfl

/-- C5: after the branch-specific processing of an instruction succeeds, the
instruction's targeted method set is compared with the methods actually
affected; any nonzero difference makes the instruction application raise a
fatal error carrying exactly the unmatched methods, with a distinct message
template per instruction kind (delete / restore / change), and the templates
of the three kinds are pairwise distinct. -/
theorem C5_method_diff_check (vcName : String) (ne : List Route)
    (routes : List BRoute) (i : EndpointInstruction) (rs' : List BRoute)
    (ne' : List Route) (applied : List String) (errT : String)
    (h : applyInstrCore vcName ne routes i = .ok (rs', ne', applied, errT)) :
    ((i.methods.filter fun m => !applied.contains m) ≠ [] →
      applyInstruction vcName ne routes i =
        .error (.methodDiff errT (i.methods.filter fun m => !applied.contains m)
          i.path vcName)) ∧
    (∀ p ms fn, i = .didntExist p ms fn → errT = deleteErrTemplate) ∧
    (∀ p ms fn, i = .existed p ms fn → errT = restoreErrTemplate) ∧
    (∀ p ms fn ats, i = .had p ms fn ats → errT = changeErrTemplate) ∧
    (deleteErrTemplate ≠ restoreErrTemplate ∧
      deleteErrTemplate ≠ changeErrTemplate ∧
      restoreErrTemplate ≠ changeErrTemplate) := by
  refine ⟨?_, ?_, ?_, ?_, by decide, by decide, by decide⟩
  · intro hne
    have hd : (i.methods.filter fun m => !applied.contains m).isEmpty = false := by
      cases hval : i.methods.filter fun m => !applied.contains m with
      | nil => exact absurd hval hne
      | cons a t => rfl
    unfold applyInstruction
    rw [h]
    simp only [hd]
    rfl
  · rintro p ms fn rfl
    simp only [applyInstrCore] at h
    split at h
    · cases h
    · cases h; rfl
  · rintro p ms fn rfl
    simp only [applyInstrCore] at h
    split at h
    · cases h
    · split at h
      · cases h
      · cases hrem : removeRestoredFromNeverExisted vcName
            (getRoutes routes p ms fn true) ne with
        | error e => rw [hrem] at h; cases h
        | ok nee =>
            rw [hrem, exceptBindOk] at h
            cases h; rfl
  · rintro p ms fn ats rfl
    simp only [applyInstrCore] at h
    cases hhad : applyHadToRoutes vcName p ms fn ats routes with
    | error e => rw [hhad] at h; cases h
    | ok rts =>
        rw [hhad, exceptBindOk] at h
        cases h; rfl

/-- Witness for C5: deleting `\x7bGET, POST\x7d /users` when only a `GET`
route exists leaves `POST` unmatched, and the instruction application raises
the delete-kind method-difference error naming exactly `POST`. -/
theorem C5_witness :
    applyInstrCore "VC" [] [.api wUsers] (.didntExist "/users" ["GET", "POST"] none) =
        .ok (tagMatchedRoutes [.api wUsers] "/users" ["GET", "POST"] none, [],
          ["GET"], deleteErrTemplate) ∧
      applyInstruction "VC" [] [.api wUsers] (.didntExist "/users" ["GET", "POST"] none) =
        .error (.methodDiff deleteErrTemplate ["POST"] "/users" "VC") := by
  have hcore : applyInstrCore "VC" [] [.api wUsers]
      (.didntExist "/users" ["GET", "POST"] none) =
      .ok (tagMatchedRoutes [.api wUsers] "/users" ["GET", "POST"] none, [],
        ["GET"], deleteErrTemplate) := by decide
  refine ⟨hcore, ?_⟩
  have h := (C5_method_diff_check "VC" [] [.api wUsers]
      (.didntExist "/users" ["GET", "POST"] none) _ _ _ _ hcore).1 (by decide)
  exact h

/-- C3: applying an endpoint-didn't-exist instruction when some route matching
its path, methods and (when given) handler name is already marked deleted
raises the double-deletion error naming the responsible version change, the
conflicting routes' method union and their handler names; when no matching
deleted route exists (in particular when a supplied handler name rules the
already-deleted route out) no double-deletion error can be raised. -/
theorem C3_double_deletion (vcName : String) (ne : List Route)
    (routes : List BRoute) (p : String) (ms : List String) (fn : Option String) :
    (getRoutes routes p ms fn true ≠ [] →
      applyInstruction vcName ne routes (.didntExist p ms fn) =
        .error (.doubleDeletion vcName p
          (methodsUnion (getRoutes routes p ms fn true))
          ((getRoutes routes p ms fn true).map fun r => r.funcName))) ∧
    (getRoutes routes p ms fn true = [] →
      ∀ vd pd msd fnd,
        applyInstruction vcName ne routes (.didntExist p ms fn) ≠
          .error (.doubleDeletion vd pd msd fnd)) := by
  constructor
  · intro hne
    have hd : (getRoutes routes p ms fn true).isEmpty = false := by
      cases hval : getRoutes routes p ms fn true with
      | nil => exact absurd hval hne
      | cons a t => rfl
    simp [applyInstruction, applyInstrCore, hd]
  · intro hnil vd pd msd fnd hcontra
    have hd : (getRoutes routes p ms fn true).isEmpty = true := by
      rw [hnil]; rfl
    have hcore : applyInstrCore vcName ne routes (.didntExist p ms fn) =
        .ok (tagMatchedRoutes routes p ms fn, ne,
          methodsUnion (getRoutes routes p ms fn false), deleteErrTemplate) := by
      simp [applyInstrCore, hd]
    simp only [applyInstruction, hcore] at hcontra
    split at hcontra
    · exact Except.noConfusion hcontra
    · exact GenErr.noConfusion (Except.error.inj hcontra)

/-- Witness for C3, at the spec's scenario: a version change containing the
same delete instruction twice — after the first instruction tags the route,
the second raises the double-deletion error naming the version change, the
route's methods and its handler name; the whole version-change application
fails with that error. -/
theorem C3_witness :
    (getRoutes (tagMatchedRoutes [.api wUsers] "/users" ["GET"] none)
        "/users" ["GET"] none true ≠ [] ∧
      applyInstruction "MyChange" []
          (tagMatchedRoutes [.api wUsers] "/users" ["GET"] none)
          (.didntExist "/users" ["GET"] none) =
        .error (.doubleDeletion "MyChange" "/users" ["GET"] ["get_users"]) ∧
      applyVersionChange
          ⟨"MyChange", [.didntExist "/users" ["GET"] none,
            .didntExist "/users" ["GET"] none]⟩ ([.api wUsers], []) =
        .error (.doubleDeletion "MyChange" "/users" ["GET"] ["get_users"])) := by
  refine ⟨by decide, ?_, by decide⟩
  exact (C3_double_deletion "MyChange" []
      (tagMatchedRoutes [.api wUsers] "/users" ["GET"] none)
      "/users" ["GET"] none).1 (by decide)

/-- C1: for every version in the mapping returned by
`transform()` / `generate_versioned_routers`, the returned route collection
contains no route tagged with the deleted-route marker (they are all stripped
before the mapping is returned). -/
theorem C1_no_deleted_in_result (inp : GenInput)
    (m : List (String × List BRoute)) (p' : List BRoute)
    (h : transform inp = .ok (m, p')) :
    ∀ vr ∈ m, ∀ br ∈ vr.2, ∀ r, br = BRoute.api r →
      r.tags.contains DELETED_ROUTE_TAG = false := by
  unfold transform at h
  cases hloop : transformLoop inp inp.versions inp.parentRoutes []
      (initNeverExisted inp.parentRoutes) with
  | error e => rw [hloop] at h; cases h
  | ok pair =>
      obtain ⟨infos, ne⟩ := pair
      rw [hloop] at h
      dsimp only at h
      by_cases hne : ne.isEmpty = true
      · rw [hne] at h
        simp only [Bool.not_true, if_neg (Bool.false_ne_true)] at h
        cases hwrap : wrapRoutes infos inp.parentRoutes 0 with
        | error e => rw [hwrap] at h; cases h
        | ok np =>
            rw [hwrap] at h
            cases h
            intro vr hvr br hbr r hr
            subst hr
            simp only [stripDeleted, List.mem_map] at hvr
            obtain ⟨⟨v, rts⟩, _, hvr⟩ := hvr
            subst hvr
            simp only [List.mem_filter] at hbr
            have := hbr.2
            simp only [Bool.not_eq_true'] at this
            exact this
      · have : ne.isEmpty = false := by
          cases hni : ne.isEmpty
          · rfl
          · exact absurd hni hne
        simp only [this] at h
        cases h

/-- C6: when the main loop of `transform` finishes with a nonempty
`routes_that_never_existed` list (some route marked "exists only in older
versions" was never restored by any endpoint-existed instruction), `transform`
raises the fatal error naming every offending route, and no
version-to-collection mapping is returned. -/
theorem C6_never_restored_error (inp : GenInput)
    (infos : List (String × List BRoute)) (ne : List Route)
    (hloop : transformLoop inp inp.versions inp.parentRoutes []
      (initNeverExisted inp.parentRoutes) = .ok (infos, ne))
    (hne : ne ≠ []) :
    transform inp = .error (.neverRestored ne) := by
  unfold transform
  rw [hloop]
  have hd : ne.isEmpty = false := by
    cases hval : ne with
    | nil => exact absurd hval hne
    | cons a t => rfl
  simp [hd]

/-- Shape of a successful wrapping loop: the returned parent routes are the
input parent routes with `_add_request_and_response_params` applied in place
to every `APIRoute`. -/
theorem wrapRoutes_ok_shape (infos : List (String × List BRoute))
    (l : List BRoute) (i : Nat) (l' : List BRoute)
    (h : wrapRoutes infos l i = .ok l') :
    l' = l.map fun br =>
      match br with
      | .api r => .api (addRequestAndResponseParams r)
      | x => x := by
  induction l generalizing i l' with
  | nil =>
      simp only [wrapRoutes] at h
      cases h; rfl
  | cons hd t ih =>
      cases hd with
      | nonApi x =>
          simp only [wrapRoutes] at h
          cases hrest : wrapRoutes infos t (i + 1) with
          | error e => rw [hrest] at h; cases h
          | ok rest' =>
              rw [hrest, exceptBindOk] at h
              cases h
              simp [List.map, ih (i + 1) rest' hrest]
      | api r =>
          simp only [wrapRoutes] at h
          cases hchk : checkOlderRoutesAsync infos i with
          | error e => rw [hchk] at h; cases h
          | ok u =>
              rw [hchk, exceptBindOk] at h
              cases hrest : wrapRoutes infos t (i + 1) with
              | error e => rw [hrest] at h; cases h
              | ok rest' =>
                  rw [hrest, exceptBindOk] at h
                  cases h
                  simp [List.map, ih (i + 1) rest' hrest]

/-- C10: `transform` mutates the caller's input (latest) router: on success
the parent router's routes end up with `_add_request_and_response_params`
applied in place to every `APIRoute`, and that function changes exactly the
dependant's request/response parameter names — each is set to the hidden
cadwyn constant when it was unset, kept as-is otherwise, with every other
route field untouched. -/
theorem C10_parent_mutation (inp : GenInput)
    (m : List (String × List BRoute)) (p' : List BRoute)
    (h : transform inp = .ok (m, p')) :
    (p' = inp.parentRoutes.map fun br =>
      match br with
      | .api r => .api (addRequestAndResponseParams r)
      | x => x) ∧
    (∀ r : Route,
      (addRequestAndResponseParams r).dependant.requestParamName =
        some (r.dependant.requestParamName.getD CADWYN_REQUEST_PARAM_NAME) ∧
      (addRequestAndResponseParams r).dependant.responseParamName =
        some (r.dependant.responseParamName.getD CADWYN_RESPONSE_PARAM_NAME) ∧
      { addRequestAndResponseParams r with dependant := r.dependant } = r) := by
  constructor
  · unfold transform at h
    cases hloop : transformLoop inp inp.versions inp.parentRoutes []
        (initNeverExisted inp.parentRoutes) with
    | error e => rw [hloop] at h; cases h
    | ok pair =>
        obtain ⟨infos, ne⟩ := pair
        rw [hloop] at h
        dsimp only at h
        by_cases hne : ne.isEmpty = true
        · rw [hne] at h
          simp only [Bool.not_true, if_neg (Bool.false_ne_true)] at h
          cases hwrap : wrapRoutes infos inp.parentRoutes 0 with
          | error e => rw [hwrap] at h; cases h
          | ok np =>
              rw [hwrap] at h
              cases h
              exact wrapRoutes_ok_shape infos inp.parentRoutes 0 _ hwrap
        · have hnef : ne.isEmpty = false := by
            cases hni : ne.isEmpty
            · rfl
            · exact absurd hni hne
          simp only [hnef] at h
          cases h
  · intro r
    refine ⟨?_, ?_, rfl⟩ <;>
      cases hq : r.dependant.requestParamName <;>
        cases hs : r.dependant.responseParamName <;>
          simp [addRequestAndResponseParams, hq, hs]

/-- Spec scenario input: a bundle with versions [2000-01-01, 2021-01-01]
(iterated newest first) and one version change at 2021-01-01 declaring
endpoint `GET /users` "didn't exist" before. -/
def scenarioInput : GenInput :=
  ⟨[.api wUsers],
   [⟨"2021-01-01", [⟨"RemoveUsers", [.didntExist "/users" ["GET"] none]⟩]⟩,
    ⟨"2000-01-01", []⟩],
   ["2021-01-01", "2000-01-01"]⟩

/-- The `/users` route as it appears in the generated collections (the
dependant was rebuilt and filled with the hidden cadwyn parameter names). -/
def wUsersMig : Route :=
  ⟨"/users", ["GET"], "get_users", [], [], true, none, none,
    ⟨some CADWYN_REQUEST_PARAM_NAME, some CADWYN_RESPONSE_PARAM_NAME⟩⟩

/-- Witness for C1, at the spec's scenario: generation succeeds, no returned
collection contains a deleted-tagged route, the generated 2021 collection
contains `/users` and the generated 2000 collection is empty (in particular it
does not contain `/users`). -/
theorem C1_witness :
    transform scenarioInput =
        .ok ([("2021-01-01", [.api wUsersMig]), ("2000-01-01", [])],
          [.api wUsersMig]) ∧
      (∀ vr ∈ [("2021-01-01", [BRoute.api wUsersMig]),
          ("2000-01-01", ([] : List BRoute))],
        ∀ br ∈ vr.2, ∀ r, br = BRoute.api r →
          r.tags.contains DELETED_ROUTE_TAG = false) ∧
      wUsersMig.path = "/users" := by
  have ht : transform scenarioInput =
      .ok ([("2021-01-01", [.api wUsersMig]), ("2000-01-01", [])],
        [.api wUsersMig]) := by decide
  exact ⟨ht, C1_no_deleted_in_result scenarioInput _ _ ht, rfl⟩

/-- Witness for C10, at the spec's scenario: on success the caller's parent
routes come back with the hidden cadwyn request/response parameter names
assigned in place. -/
theorem C10_witness :
    transform scenarioInput =
        .ok ([("2021-01-01", [.api wUsersMig]), ("2000-01-01", [])],
          [.api wUsersMig]) ∧
      [BRoute.api wUsersMig] = scenarioInput.parentRoutes.map fun br =>
        match br with
        | .api r => .api (addRequestAndResponseParams r)
        | x => x := by
  have ht : transform scenarioInput =
      .ok ([("2021-01-01", [.api wUsersMig]), ("2000-01-01", [])],
        [.api wUsersMig]) := by decide
  exact ⟨ht, (C10_parent_mutation scenarioInput _ _ ht).1⟩

/-- Concrete route used by the C6 witness: marked "only exists in older
versions" on the parent router and never restored. -/
def wGone : Route :=
  ⟨"/old", ["GET"], "get_old", [DELETED_ROUTE_TAG], [], true, none, none,
    ⟨none, none⟩⟩

/-- Input of the C6 witness: one version with no version changes, so the
tagged parent route is never restored. -/
def goneInput : GenInput :=
  ⟨[.api wGone], [⟨"2021-01-01", []⟩], ["2021-01-01"]⟩

/-- The tagged route after annotation migration of the working copy. -/
def wGoneMig : Route :=
  ⟨"/old", ["GET"], "get_old", [DELETED_ROUTE_TAG], [], true, none, none,
    ⟨some CADWYN_REQUEST_PARAM_NAME, some CADWYN_RESPONSE_PARAM_NAME⟩⟩

/-- Witness for C6: the loop finishes with the never-restored route still
recorded, and `transform` fails with the error naming exactly that route. -/
theorem C6_witness :
    transformLoop goneInput goneInput.versions goneInput.parentRoutes []
        (initNeverExisted goneInput.parentRoutes) =
        .ok ([("2021-01-01", [.api wGoneMig])], [wGone]) ∧
      ([wGone] ≠ ([] : List Route)) ∧
      transform goneInput = .error (.neverRestored [wGone]) := by
  have hl : transformLoop goneInput goneInput.versions goneInput.parentRoutes []
      (initNeverExisted goneInput.parentRoutes) =
      .ok ([("2021-01-01", [.api wGoneMig])], [wGone]) := by decide
  exact ⟨hl, by decide,
    C6_never_restored_error goneInput _ _ hl (by decide)⟩

/-- A successful cache lookup comes from a cache entry. -/
theorem cacheLookup_mem (c : List ((Ann × String) × Ann)) (q : Ann × String)
    (v : Ann) (h : cacheLookup c q = some v) : (q, v) ∈ c := by
  induction c with
  | nil => cases h
  | cons e t ih =>
      obtain ⟨k, w⟩ := e
      simp only [cacheLookup] at h
      by_cases hk : k = q
      · subst hk
        simp only [if_pos rfl] at h
        cases h
        exact List.mem_cons_self _ _
      · rw [if_neg hk] at h
        exact List.mem_cons_of_mem _ (ih h)

/-- C8: rewriting the identical class annotation twice to the same target
version directory through the same transformer yields the same resulting
type object: the second rewrite hits the `functools.cache` entry keyed by the
exact `(annotation, version_dir)` pair (and a `typ` value is
identity-faithful, so equality of the results is object identity). -/
theorem C8_memoization_identity (cfg : AnnCfg) (D : String)
    (s s1 s2 : RwState) (f : Bool) (n dir : String) (src : Option String)
    (r1 r2 : Ann)
    (h1 : rewriteAnn cfg (.typ f n dir src) D s = .ok (r1, s1))
    (h2 : rewriteAnn cfg (.typ f n dir src) D s1 = .ok (r2, s2)) :
    r2 = r1 := by
  simp only [rewriteAnn] at h1 h2
  cases hl : cacheLookup s.cache (.typ f n dir src, D) with
  | some v =>
      rw [hl] at h1
      cases h1
      rw [hl] at h2
      cases h2
      rfl
  | none =>
      rw [hl] at h1
      cases hcvt : changeVersionOfType cfg f n dir src D with
      | error e => rw [hcvt] at h1; cases h1
      | ok r =>
          rw [hcvt] at h1
          simp only [Except.ok.injEq, Prod.mk.injEq] at h1
          obtain ⟨hr, hs⟩ := h1
          have hl2 : cacheLookup s1.cache (.typ f n dir src, D) = some r := by
            rw [← hs]
            simp [cachePut, cacheLookup]
          rw [hl2] at h2
          simp only [Except.ok.injEq, Prod.mk.injEq] at h2
          rw [← h2.1, hr]

/-- Concrete transformer configuration used by the annotation witnesses: a
schema package `/pkg` whose template directory is `/pkg/latest`, with version
directories for 2000-01-01 and 2021-01-01; every class is a schema model
whose source file is `<dir>/schemas.py`. -/
def cfgW : AnnCfg :=
  ⟨["/pkg/latest", "/pkg/v2000_01_01", "/pkg/v2021_01_01"],
   fun _ d => (true, some (d ++ "/schemas.py"))⟩

/-- Witness for C8: a concrete class annotation rewritten twice to the
2000-01-01 directory; the second call returns exactly the first call's
result. -/
theorem C8_witness :
    rewriteAnn cfgW (.typ true "User" "/pkg/latest" (some "/pkg/latest/schemas.py"))
        "/pkg/v2000_01_01" ⟨0, []⟩ =
      .ok (.typ true "User" "/pkg/v2000_01_01" (some "/pkg/v2000_01_01/schemas.py"),
        ⟨0, [((.typ true "User" "/pkg/latest" (some "/pkg/latest/schemas.py"),
            "/pkg/v2000_01_01"),
          .typ true "User" "/pkg/v2000_01_01" (some "/pkg/v2000_01_01/schemas.py"))]⟩) ∧
    rewriteAnn cfgW (.typ true "User" "/pkg/latest" (some "/pkg/latest/schemas.py"))
        "/pkg/v2000_01_01"
        ⟨0, [((.typ true "User" "/pkg/latest" (some "/pkg/latest/schemas.py"),
            "/pkg/v2000_01_01"),
          .typ true "User" "/pkg/v2000_01_01" (some "/pkg/v2000_01_01/schemas.py"))]⟩ =
      .ok (.typ true "User" "/pkg/v2000_01_01" (some "/pkg/v2000_01_01/schemas.py"),
        ⟨0, [((.typ true "User" "/pkg/latest" (some "/pkg/latest/schemas.py"),
            "/pkg/v2000_01_01"),
          .typ true "User" "/pkg/v2000_01_01" (some "/pkg/v2000_01_01/schemas.py"))]⟩) ∧
    (Ann.typ true "User" "/pkg/v2000_01_01" (some "/pkg/v2000_01_01/schemas.py") =
      Ann.typ true "User" "/pkg/v2000_01_01" (some "/pkg/v2000_01_01/schemas.py")) := by
  have h1 : rewriteAnn cfgW
      (.typ true "User" "/pkg/latest" (some "/pkg/latest/schemas.py"))
      "/pkg/v2000_01_01" ⟨0, []⟩ =
      .ok (.typ true "User" "/pkg/v2000_01_01" (some "/pkg/v2000_01_01/schemas.py"),
        ⟨0, [((.typ true "User" "/pkg/latest" (some "/pkg/latest/schemas.py"),
            "/pkg/v2000_01_01"),
          .typ true "User" "/pkg/v2000_01_01" (some "/pkg/v2000_01_01/schemas.py"))]⟩) := by
    decide
  have h2 : rewriteAnn cfgW
      (.typ true "User" "/pkg/latest" (some "/pkg/latest/schemas.py"))
      "/pkg/v2000_01_01"
      ⟨0, [((.typ true "User" "/pkg/latest" (some "/pkg/latest/schemas.py"),
          "/pkg/v2000_01_01"),
        .typ true "User" "/pkg/v2000_01_01" (some "/pkg/v2000_01_01/schemas.py"))]⟩ =
      .ok (.typ true "User" "/pkg/v2000_01_01" (some "/pkg/v2000_01_01/schemas.py"),
        ⟨0, [((.typ true "User" "/pkg/latest" (some "/pkg/latest/schemas.py"),
            "/pkg/v2000_01_01"),
          .typ true "User" "/pkg/v2000_01_01" (some "/pkg/v2000_01_01/schemas.py"))]⟩) := by
    decide
  exact ⟨h1, h2, C8_memoization_identity cfgW "/pkg/v2000_01_01" _ _ _
    true "User" "/pkg/latest" (some "/pkg/latest/schemas.py") _ _ h1 h2⟩

/-- C9 counterexample: the claim states that validation of a schema type's
source location happens when the target is the template (`latest`) directory
and that no other target triggers it.  On `cfgW` the template directory is
`/pkg/latest` and the newest dated directory is `/pkg/v2021_01_01`; for a
schema class defined in `/pkg/v2000_01_01` (inside the shared tree, not
inside the template directory) rewriting to the template directory raises no
error, while rewriting to the newest dated directory does — both directions
of the claim fail. -/
theorem C9_counterexample :
    templateVersionDir cfgW = "/pkg/latest" ∧
    latestVersionDir cfgW = "/pkg/v2021_01_01" ∧
    strStartsWith "/pkg/v2000_01_01/schemas.py" (dirWithVersions cfgW) = true ∧
    strStartsWith "/pkg/v2000_01_01/schemas.py" (templateVersionDir cfgW) = false ∧
    changeVersionOfType cfgW true "User" "/pkg/v2000_01_01"
        (some "/pkg/v2000_01_01/schemas.py") (templateVersionDir cfgW) =
      .ok (.typ true "User" "/pkg/latest" (some "/pkg/latest/schemas.py")) ∧
    changeVersionOfType cfgW true "User" "/pkg/v2000_01_01"
        (some "/pkg/v2000_01_01/schemas.py") (latestVersionDir cfgW) =
      .error (.notInTemplateDir "User" "/pkg/latest"
        "/pkg/v2000_01_01/schemas.py") := by
  refine ⟨by decide, by decide, by decide, by decide, by decide, by decide⟩

/-- C9 (amended): when rewriting a concrete schema-model or enumeration type,
the source-location validation runs exactly when the target directory is
`latest_version_dir` — the *maximal* (newest dated) version directory, not
the template directory — and it raises exactly when the type's source file is
known, lies under the directory shared by all version modules, does not lie
under the template directory, and lies under some version directory; for any
other target directory no validation occurs (rewriting never errors). -/
theorem C9_validation_trigger (cfg : AnnCfg) (f : Bool) (n dir : String)
    (src : Option String) (D : String) :
    (∃ e, changeVersionOfType cfg f n dir src D = .error e) ↔
      (f = true ∧ D = latestVersionDir cfg ∧
        ∃ sf, src = some sf ∧
          strStartsWith sf (dirWithVersions cfg) = true ∧
          strStartsWith sf (templateVersionDir cfg) = false ∧
          ∃ d ∈ cfg.versionDirs, strStartsWith sf d = true) := by
  cases f with
  | false =>
      constructor
      · rintro ⟨e, he⟩
        simp [changeVersionOfType] at he
      · rintro ⟨h, _⟩
        cases h
  | true =>
      by_cases hD : D = latestVersionDir cfg
      · subst hD
        cases src with
        | none =>
            constructor
            · rintro ⟨e, he⟩
              simp [changeVersionOfType] at he
            · rintro ⟨_, _, sf, hsf, _⟩
              cases hsf
        | some sf =>
            by_cases hcond : (strStartsWith sf (dirWithVersions cfg) &&
                !strStartsWith sf (templateVersionDir cfg) &&
                cfg.versionDirs.any fun d => strStartsWith sf d) = true
            · have he : changeVersionOfType cfg true n dir (some sf)
                  (latestVersionDir cfg) =
                  .error (.notInTemplateDir n (templateVersionDir cfg) sf) := by
                simp [changeVersionOfType, validateSourceFileInTemplateDir, hcond]
              constructor
              · intro _
                simp only [Bool.and_eq_true, Bool.not_eq_true',
                  List.any_eq_true] at hcond
                exact ⟨rfl, rfl, sf, rfl, hcond.1.1, hcond.1.2, hcond.2⟩
              · intro _
                exact ⟨.notInTemplateDir n (templateVersionDir cfg) sf, he⟩
            · have hok : changeVersionOfType cfg true n dir (some sf)
                  (latestVersionDir cfg) =
                  .ok (getAnotherVersionOfCls cfg true n dir (some sf)
                    (latestVersionDir cfg)) := by
                simp [changeVersionOfType, validateSourceFileInTemplateDir, hcond]
              constructor
              · rintro ⟨e, hee⟩
                rw [hok] at hee
                cases hee
              · rintro ⟨_, _, sf', hsf', h1, h2, d, hd, h3⟩
                cases hsf'
                refine absurd ?_ hcond
                simp only [Bool.and_eq_true, Bool.not_eq_true', List.any_eq_true]
                exact ⟨⟨h1, h2⟩, d, hd, h3⟩
      · constructor
        · rintro ⟨e, he⟩
          simp [changeVersionOfType, hD] at he
        · rintro ⟨_, hDl, _⟩
          exact absurd hDl hD

/-- Witness for C9's amended theorem: on the concrete configuration, the
characterization yields the error for a 2000-class rewritten to the newest
dated directory. -/
theorem C9_witness :
    ∃ e, changeVersionOfType cfgW true "User" "/pkg/v2000_01_01"
        (some "/pkg/v2000_01_01/schemas.py") "/pkg/v2021_01_01" = .error e := by
  exact (C9_validation_trigger cfgW true "User" "/pkg/v2000_01_01"
      (some "/pkg/v2000_01_01/schemas.py") "/pkg/v2021_01_01").mpr
    ⟨rfl, by decide, "/pkg/v2000_01_01/schemas.py", rfl, by decide, by decide,
      "/pkg/v2000_01_01", by decide, by decide⟩

/-- C7 counterexample: annotation rewriting is not idempotent on the
callable-rebuilding branch.  Rewriting a callable creates a fresh function
object; rewriting the result again (same transformer, same target directory)
misses the cache — the new callable is a different object, hence a different
cache key — and creates yet another fresh object, which Python `==`
(identity on functions) distinguishes from the first result. -/
theorem C7_counterexample :
    rewriteAnn cfgW (.func 0 false .nil .nil) "/pkg/v2000_01_01" ⟨1, []⟩ =
      .ok (.func 1 false .nil .nil,
        ⟨2, [((.func 0 false .nil .nil, "/pkg/v2000_01_01"),
          .func 1 false .nil .nil)]⟩) ∧
    rewriteAnn cfgW (.func 1 false .nil .nil) "/pkg/v2000_01_01"
        ⟨2, [((.func 0 false .nil .nil, "/pkg/v2000_01_01"),
          .func 1 false .nil .nil)]⟩ =
      .ok (.func 2 false .nil .nil,
        ⟨3, [((.func 1 false .nil .nil, "/pkg/v2000_01_01"),
            .func 2 false .nil .nil),
          ((.func 0 false .nil .nil, "/pkg/v2000_01_01"),
            .func 1 false .nil .nil)]⟩) ∧
    (Ann.func 2 false .nil .nil ≠ Ann.func 1 false .nil .nil) := by
  refine ⟨by decide, by decide, by decide⟩

mutual
/-- Rewriting a callable-free annotation produces a callable-free
annotation. -/
theorem noFresh_pureRW (cfg : AnnCfg) (a : Ann) (D : String)
    (h : noFreshA a = true) : noFreshA (pureRW cfg a D) = true := by
  cases a with
  | pydict kvs =>
      simp only [noFreshA] at h
      simp only [pureRW, noFreshA]
      exact noFresh_pureKVs cfg kvs D h
  | pylist es =>
      simp only [noFreshA] at h
      simp only [pureRW, noFreshA]
      exact noFresh_pureList cfg es D h
  | pytuple es =>
      simp only [noFreshA] at h
      simp only [pureRW, noFreshA]
      exact noFresh_pureList cfg es D h
  | generic o args =>
      simp only [noFreshA] at h
      simp only [pureRW, noFreshA]
      exact noFresh_pureList cfg args D h
  | depends i dep uc => simp [noFreshA] at h
  | unionT args =>
      simp only [noFreshA] at h
      simp only [pureRW, noFreshA]
      exact noFresh_pureList cfg args D h
  | anyT => simp [pureRW, noFreshA]
  | newtype i => simp [pureRW, noFreshA]
  | typ f n dir src =>
      simp only [pureRW, getAnotherVersionOfCls, clsAnnIn]
      split
      · split
        · simp [noFreshA]
        · simp [noFreshA]
      · simp [noFreshA]
  | func i c annots defaults => simp [noFreshA] at h
  | other i => simp [pureRW, noFreshA]
termination_by structural a

/-- Spine version of `noFresh_pureRW`. -/
theorem noFresh_pureList (cfg : AnnCfg) (l : AnnList) (D : String)
    (h : noFreshL l = true) : noFreshL (pureList cfg l D) = true := by
  cases l with
  | nil => simp [pureList, noFreshL]
  | cons hd t =>
      simp only [noFreshL, Bool.and_eq_true] at h
      simp only [pureList, noFreshL, Bool.and_eq_true]
      exact ⟨noFresh_pureRW cfg hd D h.1, noFresh_pureList cfg t D h.2⟩
termination_by structural l

/-- Dict-spine version of `noFresh_pureRW`. -/
theorem noFresh_pureKVs (cfg : AnnCfg) (l : KVList) (D : String)
    (h : noFreshKVs l = true) : noFreshKVs (pureKVs cfg l D) = true := by
  cases l with
  | nil => simp [pureKVs, noFreshKVs]
  | cons k v t =>
      simp only [noFreshKVs, Bool.and_eq_true] at h
      simp only [pureKVs, noFreshKVs, Bool.and_eq_true]
      exact ⟨⟨noFresh_pureRW cfg k D h.1.1,
        noFresh_pureRW cfg v D h.1.2⟩, noFresh_pureKVs cfg t D h.2⟩
termination_by structural l
end

mutual
/-- Pure idempotence: rewriting a callable-free annotation twice to the same
target directory gives the same value as rewriting it once. -/
theorem pureRW_idem (cfg : AnnCfg) (a : Ann) (D : String)
    (h : noFreshA a = true) :
    pureRW cfg (pureRW cfg a D) D = pureRW cfg a D := by
  cases a with
  | pydict kvs =>
      simp only [noFreshA] at h
      simp only [pureRW]
      rw [pureKVs_idem cfg kvs D h]
  | pylist es =>
      simp only [noFreshA] at h
      simp only [pureRW]
      rw [pureList_idem cfg es D h]
  | pytuple es =>
      simp only [noFreshA] at h
      simp only [pureRW]
      rw [pureList_idem cfg es D h]
  | generic o args =>
      simp only [noFreshA] at h
      simp only [pureRW]
      rw [pureList_idem cfg args D h]
  | depends i dep uc => simp [noFreshA] at h
  | unionT args =>
      simp only [noFreshA] at h
      simp only [pureRW]
      rw [pureList_idem cfg args D h]
  | anyT => simp [pureRW]
  | newtype i => simp [pureRW]
  | typ f n dir src =>
      cases f with
      | false => simp [pureRW]
      | true =>
          by_cases hv : isVersionedModuleDir cfg dir = true
          · cases hc1 : (cfg.classes n D).1 with
            | false =>
                simp [pureRW, getAnotherVersionOfCls, clsAnnIn, hv, hc1]
            | true =>
                simp only [pureRW, getAnotherVersionOfCls, clsAnnIn, hv,
                  hc1, if_pos rfl, if_true]
                split
                · rfl
                · rfl
          · have hvf : isVersionedModuleDir cfg dir = false := by
              cases hvv : isVersionedModuleDir cfg dir
              · rfl
              · exact absurd hvv hv
            simp [pureRW, getAnotherVersionOfCls, hvf]
  | func i c annots defaults => simp [noFreshA] at h
  | other i => simp [pureRW]
termination_by structural a

/-- Spine version of `pureRW_idem`. -/
theorem pureList_idem (cfg : AnnCfg) (l : AnnList) (D : String)
    (h : noFreshL l = true) :
    pureList cfg (pureList cfg l D) D = pureList cfg l D := by
  cases l with
  | nil => simp [pureList]
  | cons hd t =>
      simp only [noFreshL, Bool.and_eq_true] at h
      simp only [pureList]
      rw [pureRW_idem cfg hd D h.1, pureList_idem cfg t D h.2]
termination_by structural l

/-- Dict-spine version of `pureRW_idem`. -/
theorem pureKVs_idem (cfg : AnnCfg) (l : KVList) (D : String)
    (h : noFreshKVs l = true) :
    pureKVs cfg (pureKVs cfg l D) D = pureKVs cfg l D := by
  cases l with
  | nil => simp [pureKVs]
  | cons k v t =>
      simp only [noFreshKVs, Bool.and_eq_true] at h
      simp only [pureKVs]
      rw [pureRW_idem cfg k D h.1.1, pureRW_idem cfg v D h.1.2,
        pureKVs_idem cfg t D h.2]
termination_by structural l
end

/-- Reduction of `pure` into the `Except.ok` constructor. -/
theorem exceptPureEq {α ε : Type} (a : α) : (pure a : Except ε α) = Except.ok a := rfl

/-- Inserting a coherent entry preserves cache coherence. -/
theorem cacheOK_put (cfg : AnnCfg) (c : List ((Ann × String) × Ann))
    (key : Ann) (D : String) (hC : CacheOK cfg c)
    (hk : noFreshA key = true) :
    CacheOK cfg (((key, D), pureRW cfg key D) :: c) := by
  intro k d v hmem
  rcases List.mem_cons.mp hmem with hhead | htail
  · simp only [Prod.mk.injEq] at hhead
    obtain ⟨⟨hk1, hd1⟩, hv1⟩ := hhead
    subst hk1
    subst hd1
    subst hv1
    exact ⟨hk, rfl⟩
  · exact hC _ _ _ htail

mutual
/-- Correspondence between the stateful rewriter and the pure rewrite: on a
callable-free annotation, with a target that is not the newest dated version
directory and a coherent cache, `rewriteAnn` succeeds, returns exactly the
pure rewrite, and leaves the cache coherent. -/
theorem rwAnn_pure (cfg : AnnCfg) (a : Ann) (D : String) (s : RwState)
    (hnf : noFreshA a = true) (hD : D ≠ latestVersionDir cfg)
    (hc : CacheOK cfg s.cache) :
    ∃ s', rewriteAnn cfg a D s = .ok (pureRW cfg a D, s') ∧
      CacheOK cfg s'.cache := by
  cases a with
  | pydict kvs =>
      have hk : noFreshKVs kvs = true := by simpa [noFreshA] using hnf
      obtain ⟨s1, hkvs, hc1⟩ := rwKVs_pure cfg kvs D s hk hD hc
      refine ⟨s1, ?_, hc1⟩
      simp only [rewriteAnn, hkvs, exceptBindOk, pureRW, exceptPureEq]
  | pylist es =>
      have hk : noFreshL es = true := by simpa [noFreshA] using hnf
      obtain ⟨s1, hes, hc1⟩ := rwList_pure cfg es D s hk hD hc
      refine ⟨s1, ?_, hc1⟩
      simp only [rewriteAnn, hes, exceptBindOk, pureRW, exceptPureEq]
  | pytuple es =>
      have hk : noFreshL es = true := by simpa [noFreshA] using hnf
      obtain ⟨s1, hes, hc1⟩ := rwList_pure cfg es D s hk hD hc
      refine ⟨s1, ?_, hc1⟩
      simp only [rewriteAnn, hes, exceptBindOk, pureRW, exceptPureEq]
  | generic o args =>
      have hk : noFreshL args = true := by simpa [noFreshA] using hnf
      cases hl : cacheLookup s.cache (.generic o args, D) with
      | some v =>
          obtain ⟨_, hv⟩ := hc _ _ _ (cacheLookup_mem _ _ _ hl)
          refine ⟨s, ?_, hc⟩
          simp only [rewriteAnn, hl, hv]
      | none =>
          obtain ⟨s1, hargs, hc1⟩ := rwList_pure cfg args D s hk hD hc
          refine ⟨cachePut s1 (.generic o args) D
            (pureRW cfg (.generic o args) D), ?_, ?_⟩
          · simp only [rewriteAnn, hl, hargs, exceptBindOk, pureRW, exceptPureEq]
          · simp only [cachePut]
            exact cacheOK_put cfg s1.cache (.generic o args) D hc1 hnf
  | depends i dep uc => simp [noFreshA] at hnf
  | unionT args =>
      have hk : noFreshL args = true := by simpa [noFreshA] using hnf
      cases hl : cacheLookup s.cache (.unionT args, D) with
      | some v =>
          obtain ⟨_, hv⟩ := hc _ _ _ (cacheLookup_mem _ _ _ hl)
          refine ⟨s, ?_, hc⟩
          simp only [rewriteAnn, hl, hv]
      | none =>
          obtain ⟨s1, hargs, hc1⟩ := rwList_pure cfg args D s hk hD hc
          refine ⟨cachePut s1 (.unionT args) D
            (pureRW cfg (.unionT args) D), ?_, ?_⟩
          · simp only [rewriteAnn, hl, hargs, exceptBindOk, pureRW, exceptPureEq]
          · simp only [cachePut]
            exact cacheOK_put cfg s1.cache (.unionT args) D hc1 hnf
  | anyT =>
      cases hl : cacheLookup s.cache (.anyT, D) with
      | some v =>
          obtain ⟨_, hv⟩ := hc _ _ _ (cacheLookup_mem _ _ _ hl)
          refine ⟨s, ?_, hc⟩
          simp only [rewriteAnn, hl, hv]
      | none =>
          refine ⟨cachePut s .anyT D (pureRW cfg .anyT D), ?_, ?_⟩
          · simp only [rewriteAnn, hl, pureRW]
          · simp only [cachePut]
            exact cacheOK_put cfg s.cache .anyT D hc hnf
  | newtype i =>
      cases hl : cacheLookup s.cache (.newtype i, D) with
      | some v =>
          obtain ⟨_, hv⟩ := hc _ _ _ (cacheLookup_mem _ _ _ hl)
          refine ⟨s, ?_, hc⟩
          simp only [rewriteAnn, hl, hv]
      | none =>
          refine ⟨cachePut s (.newtype i) D (pureRW cfg (.newtype i) D), ?_, ?_⟩
          · simp only [rewriteAnn, hl, pureRW]
          · simp only [cachePut]
            exact cacheOK_put cfg s.cache (.newtype i) D hc hnf
  | typ f n dir src =>
      cases hl : cacheLookup s.cache (.typ f n dir src, D) with
      | some v =>
          obtain ⟨_, hv⟩ := hc _ _ _ (cacheLookup_mem _ _ _ hl)
          refine ⟨s, ?_, hc⟩
          simp only [rewriteAnn, hl, hv]
      | none =>
          have hcvt : changeVersionOfType cfg f n dir src D =
              .ok (pureRW cfg (.typ f n dir src) D) := by
            cases f with
            | false => simp [changeVersionOfType, pureRW]
            | true => simp [changeVersionOfType, hD, pureRW]
          refine ⟨cachePut s (.typ f n dir src) D
            (pureRW cfg (.typ f n dir src) D), ?_, ?_⟩
          · simp only [rewriteAnn, hl, hcvt]
          · simp only [cachePut]
            exact cacheOK_put cfg s.cache (.typ f n dir src) D hc hnf
  | func i c annots defaults => simp [noFreshA] at hnf
  | other i =>
      cases hl : cacheLookup s.cache (.other i, D) with
      | some v =>
          obtain ⟨_, hv⟩ := hc _ _ _ (cacheLookup_mem _ _ _ hl)
          refine ⟨s, ?_, hc⟩
          simp only [rewriteAnn, hl, hv]
      | none =>
          refine ⟨cachePut s (.other i) D (pureRW cfg (.other i) D), ?_, ?_⟩
          · simp only [rewriteAnn, hl, pureRW]
          · simp only [cachePut]
            exact cacheOK_put cfg s.cache (.other i) D hc hnf
termination_by structural a

/-- Spine version of `rwAnn_pure`. -/
theorem rwList_pure (cfg : AnnCfg) (l : AnnList) (D : String) (s : RwState)
    (hnf : noFreshL l = true) (hD : D ≠ latestVersionDir cfg)
    (hc : CacheOK cfg s.cache) :
    ∃ s', rewriteList cfg l D s = .ok (pureList cfg l D, s') ∧
      CacheOK cfg s'.cache := by
  cases l with
  | nil => exact ⟨s, by simp [rewriteList, pureList], hc⟩
  | cons hd t =>
      simp only [noFreshL, Bool.and_eq_true] at hnf
      obtain ⟨s1, hh, hc1⟩ := rwAnn_pure cfg hd D s hnf.1 hD hc
      obtain ⟨s2, ht, hc2⟩ := rwList_pure cfg t D s1 hnf.2 hD hc1
      refine ⟨s2, ?_, hc2⟩
      simp only [rewriteList, hh, exceptBindOk, ht, pureList, exceptPureEq]
termination_by structural l

/-- Dict-spine version of `rwAnn_pure`. -/
theorem rwKVs_pure (cfg : AnnCfg) (l : KVList) (D : String) (s : RwState)
    (hnf : noFreshKVs l = true) (hD : D ≠ latestVersionDir cfg)
    (hc : CacheOK cfg s.cache) :
    ∃ s', rewriteKVs cfg l D s = .ok (pureKVs cfg l D, s') ∧
      CacheOK cfg s'.cache := by
  cases l with
  | nil => exact ⟨s, by simp [rewriteKVs, pureKVs], hc⟩
  | cons k v t =>
      simp only [noFreshKVs, Bool.and_eq_true] at hnf
      obtain ⟨s1, hk, hc1⟩ := rwAnn_pure cfg k D s hnf.1.1 hD hc
      obtain ⟨s2, hv, hc2⟩ := rwAnn_pure cfg v D s1 hnf.1.2 hD hc1
      obtain ⟨s3, ht, hc3⟩ := rwKVs_pure cfg t D s2 hnf.2 hD hc2
      refine ⟨s3, ?_, hc3⟩
      simp only [rewriteKVs, hk, exceptBindOk, hv, ht, pureKVs, exceptPureEq]
termination_by structural l
end

/-- C7 (amended): annotation rewriting is idempotent under repeated rewriting
to the same target directory for every annotation shape that contains no
callable and no dependency wrapper (dicts, lists, tuples, generics, unions,
`Any`, `NewType` aliases, concrete types, opaque values), provided the target
is not the newest dated version directory (where re-validating the rewritten
class's source location can raise instead) — starting from a coherent cache,
such as a fresh transformer's empty one.  The callable-rebuilding branch (and
the `Depends` branch) rebuild a fresh object on every call, so idempotence
fails there (see the counterexample). -/
theorem C7_idempotent_noncallable (cfg : AnnCfg) (a : Ann) (D : String)
    (s : RwState) (r1 : Ann) (s1 : RwState)
    (hnf : noFreshA a = true) (hD : D ≠ latestVersionDir cfg)
    (hc : CacheOK cfg s.cache)
    (h1 : rewriteAnn cfg a D s = .ok (r1, s1)) :
    ∃ s2, rewriteAnn cfg r1 D s1 = .ok (r1, s2) := by
  obtain ⟨s', heq, hc'⟩ := rwAnn_pure cfg a D s hnf hD hc
  rw [heq] at h1
  simp only [Except.ok.injEq, Prod.mk.injEq] at h1
  obtain ⟨hr, hs⟩ := h1
  have hnf1 : noFreshA r1 = true := hr ▸ noFresh_pureRW cfg a D hnf
  have hidem : pureRW cfg r1 D = r1 := by
    rw [← hr]
    exact pureRW_idem cfg a D hnf
  obtain ⟨s2, heq2, _⟩ := rwAnn_pure cfg r1 D s1 hnf1 hD (hs ▸ hc')
  rw [hidem] at heq2
  exact ⟨s2, heq2⟩

/-- Witness for the amended C7: a concrete schema class rewritten to the
2000-01-01 directory; rewriting the result again returns it unchanged. -/
theorem C7_witness :
    (noFreshA (.typ true "User" "/pkg/latest" (some "/pkg/latest/schemas.py")) = true) ∧
    ("/pkg/v2000_01_01" ≠ latestVersionDir cfgW) ∧
    ∃ s2, rewriteAnn cfgW
        (.typ true "User" "/pkg/v2000_01_01" (some "/pkg/v2000_01_01/schemas.py"))
        "/pkg/v2000_01_01"
        ⟨0, [((.typ true "User" "/pkg/latest" (some "/pkg/latest/schemas.py"),
            "/pkg/v2000_01_01"),
          .typ true "User" "/pkg/v2000_01_01" (some "/pkg/v2000_01_01/schemas.py"))]⟩ =
      .ok (.typ true "User" "/pkg/v2000_01_01" (some "/pkg/v2000_01_01/schemas.py"), s2) := by
  refine ⟨by decide, by decide, ?_⟩
  have h1 : rewriteAnn cfgW
      (.typ true "User" "/pkg/latest" (some "/pkg/latest/schemas.py"))
      "/pkg/v2000_01_01" ⟨0, []⟩ =
      .ok (.typ true "User" "/pkg/v2000_01_01" (some "/pkg/v2000_01_01/schemas.py"),
        ⟨0, [((.typ true "User" "/pkg/latest" (some "/pkg/latest/schemas.py"),
            "/pkg/v2000_01_01"),
          .typ true "User" "/pkg/v2000_01_01" (some "/pkg/v2000_01_01/schemas.py"))]⟩) := by
    decide
  exact C7_idempotent_noncallable cfgW
    (.typ true "User" "/pkg/latest" (some "/pkg/latest/schemas.py"))
    "/pkg/v2000_01_01" ⟨0, []⟩ _ _ (by decide) (by decide)
    (by intro k d v hmem; simp at hmem) h1
